import Mathlib

/-!
Verification development for the piloto agent-orchestration service.

The Python source is shallowly embedded: JSON payloads become an inductive
`Json` type with Python truthiness / `str()` / `int()` coercion helpers,
stateful stores become explicit record states threaded through pure
functions, and the background command-retry loop becomes a structurally
recursive function over the stream of tool responses.  Every definition is
translated from a named function of the repository (the doc comment cites
the file), and the theorems settle the frozen claims about the code.
-/

/-- JSON-ish values, the payloads exchanged with tool servers and the LLM
(`src/mcp/invoke_sync.py` parses responses with `r.json()`, and
`src/llm/openai_client.py` parses `function.arguments` with `json.loads`).
`null` also stands for Python `None` (absent optional values). -/
inductive Json where
  | null : Json
  | bool (b : Bool) : Json
  | num (n : Int) : Json
  | str (s : String) : Json
  | arr (xs : List Json) : Json
  | obj (fields : List (String × Json)) : Json

/-- `d.get(k)` on a Python dict (first binding wins); `None` on non-dicts. -/
def Json.get : Json → String → Option Json
  | .obj fields, k => fields.lookup k
  | _, _ => none

/-- `isinstance(x, dict)`. -/
def Json.isObj : Json → Bool
  | .obj _ => true
  | _ => false

/-- Python truthiness of a JSON-ish value. -/
def pyTruthy : Json → Bool
  | .null => false
  | .bool b => b
  | .num n => n != 0
  | .str s => s != ""
  | .arr xs => !xs.isEmpty
  | .obj fields => !fields.isEmpty

/-- Python `str()` of a JSON-ish value as it appears in f-strings.  Scalars
match CPython exactly; container renderings are abstracted to fixed tokens
since no claim evaluates them. -/
def pyStr : Json → String
  | .null => "None"
  | .bool true => "True"
  | .bool false => "False"
  | .num n => toString n
  | .str s => s
  | .arr _ => "<list>"
  | .obj _ => "<dict>"

/-- `str(x or "")` where `x` is `d.get(k)`: falsy values collapse to `""`. -/
def pyStrOrEmpty (v : Option Json) : String :=
  match v with
  | some j => if pyTruthy j then pyStr j else ""
  | none => ""

/-- `f"{x}"` on the raw value of `d.get(k)` (absent key renders as `None`). -/
def pyStrRawOpt (v : Option Json) : String :=
  match v with
  | none => "None"
  | some j => pyStr j

/-- Python `s.lower()` (ASCII; list-based so that proofs can evaluate it). -/
def lowerStr (s : String) : String :=
  ⟨s.data.map Char.toLower⟩

/-- Python `s.upper()` (ASCII; list-based so that proofs can evaluate it). -/
def upperStr (s : String) : String :=
  ⟨s.data.map Char.toUpper⟩

/-- Python `s.strip()`: drop whitespace from both ends. -/
def trimStr (s : String) : String :=
  ⟨((s.data.dropWhile Char.isWhitespace).reverse.dropWhile Char.isWhitespace).reverse⟩

/-- Value of a decimal digit list, most significant first. -/
def digitsVal (ds : List Char) : Int :=
  ds.foldl (fun a c => a * 10 + (Int.ofNat (c.toNat - 48))) 0

/-- Python `int(s)` on a string: optional surrounding whitespace, optional
sign, decimal digits; `none` models the `ValueError` raised otherwise. -/
def parsePyInt (s : String) : Option Int :=
  let t := trimStr s
  let (sign, digits) :=
    match t.data with
    | c :: rest =>
        if c = '-' then ((-1 : Int), rest)
        else if c = '+' then ((1 : Int), rest)
        else ((1 : Int), t.data)
    | [] => ((1 : Int), ([] : List Char))
  if digits.isEmpty || !digits.all Char.isDigit then none
  else some (sign * digitsVal digits)

/-- The exit-code coercion of `_command_failed`
(`src/agent/plan_executor.py` lines 52-55 and
`src/agent/plan_background_runner.py` lines 76-79):
`ec = int(exit_code) if exit_code is not None else 0`, with any exception
(non-numeric string, container) collapsing to `0`. -/
def pyIntCoerce : Option Json → Int
  | none => 0
  | some .null => 0
  | some (.bool b) => if b then 1 else 0
  | some (.num n) => n
  | some (.str s) => (parsePyInt s).getD 0
  | some (.arr _) => 0
  | some (.obj _) => 0

/-- Does `hay` start with `needle` (character lists)? -/
def listStartsWith : List Char → List Char → Bool
  | _, [] => true
  | [], _ :: _ => false
  | c :: cs, p :: ps => c == p && listStartsWith cs ps

/-- Substring containment on character lists (`needle in hay`). -/
def listContainsSub : List Char → List Char → Bool
  | [], needle => needle.isEmpty
  | c :: rest, needle => listStartsWith (c :: rest) needle || listContainsSub rest needle

/-- Python `needle in hay` on strings. -/
def containsSub (hay needle : String) : Bool :=
  listContainsSub hay.data needle.data

/-- The deny-list of `_looks_dangerous`
(`src/agent/plan_background_runner.py` lines 24-39). -/
def denyList : List String :=
  [ "rm -rf /"
  , "mkfs"
  , "shutdown"
  , "reboot"
  , "poweroff"
  , "format c:"
  , "diskpart"
  , "bcdedit"
  , "reg delete"
  , "del /s /q c:\\"
  , "rd /s /q c:\\"
  , ":()\x7b :|:& \x7d;:"
  , "dd if="
  ]

/-- `_looks_dangerous(cmd)` (`src/agent/plan_background_runner.py`
lines 24-41): case-insensitive substring match against the deny-list. -/
def looksDangerous (cmd : String) : Bool :=
  denyList.any (fun x => containsSub (lowerStr cmd) x)

/-- `_is_command_call(method, path)` (`src/agent/plan_background_runner.py`
lines 49-50). -/
def isCommandCall (method path : String) : Bool :=
  upperStr method == "POST" && path == "/command"

/-- `_is_command_call(method, path)` of the executor
(`src/agent/plan_executor.py` lines 26-27), on optional fields:
`(method or "").upper() == "POST" and (path or "") == "/command"`. -/
def isCommandCallOpt (method path : Option String) : Bool :=
  upperStr (method.getD "") == "POST" && (path.getD "") == "/command"

/-- The stderr/stdout message extraction shared by both `_command_failed`
versions: `stderr.strip()` if it is a non-blank string, else
`stdout.strip()` if it is a non-blank string, else `""`. -/
def cmdMsg (result : Json) : String :=
  let fromStr (v : Option Json) : Option String :=
    match v with
    | some (.str s) => if trimStr s = "" then none else some (trimStr s)
    | _ => none
  ((fromStr (result.get "stderr")).orElse
    (fun _ => fromStr (result.get "stdout"))).getD ""

/-- `_command_failed(result)` of the Background Runner
(`src/agent/plan_background_runner.py` lines 57-84).  The status string is
`str(result.get("status") or "").lower()` (no strip in this version). -/
def commandFailedRunner (result : Json) : Bool × String :=
  if !result.isObj then (true, "Resultado inválido (no es JSON).")
  else
    let status := lowerStr (pyStrOrEmpty (result.get "status"))
    let ec := pyIntCoerce (result.get "exit_code")
    let msg := cmdMsg result
    if status == "ok" && ec == 0 then
      (false, if msg == "" then "OK" else msg)
    else
      (true,
        if msg == "" then
          "Comando falló (status=" ++ status ++ ", exit_code="
            ++ pyStrRawOpt (result.get "exit_code") ++ ")"
        else msg)

/-- `_command_failed(result)` of the Plan Executor
(`src/agent/plan_executor.py` lines 30-61).  The status string is
`str(result.get("status") or "").lower().strip()`, and the synthesized
reason replaces an empty status with `unknown`. -/
def commandFailedExec (result : Json) : Bool × String :=
  if !result.isObj then (true, "Resultado /command inválido (no es JSON objeto).")
  else
    let status := trimStr (lowerStr (pyStrOrEmpty (result.get "status")))
    let ec := pyIntCoerce (result.get "exit_code")
    let msg := cmdMsg result
    if status == "ok" && ec == 0 then
      (false, if msg == "" then "OK" else msg)
    else
      (true,
        if msg == "" then
          "/command falló (status=" ++ (if status == "" then "unknown" else status)
            ++ ", exit_code=" ++ pyStrRawOpt (result.get "exit_code") ++ ")"
        else msg)

/-- Outcome fields the Plan Executor records on a step. -/
structure StepExecOut where
  status : String
  result_summary : String
  error : Option String
deriving DecidableEq

/-- The `mcp_call` arm of `execute_plan_run` (`src/agent/plan_executor.py`
lines 115-144): given the step method/path and the `(status_code, result)`
pair returned by the invoke callable, compute the step status, summary and
error.  For `POST /command` the payload decides via `_command_failed`;
otherwise a 2xx status code decides.  On error, `step.error` is set to the
(always non-empty) summary. -/
def mcpStepOutcome (method path : Option String) (sc : Int) (result : Json) : StepExecOut :=
  if isCommandCallOpt method path then
    let fr := commandFailedExec result
    if fr.1 then ⟨"error", fr.2, some fr.2⟩ else ⟨"done", fr.2, none⟩
  else
    if 200 ≤ sc ∧ sc < 300 then ⟨"done", "status_code=" ++ toString sc, none⟩
    else ⟨"error", "status_code=" ++ toString sc, some ("status_code=" ++ toString sc)⟩

/-- One tool call of an LLM reply, as normalised by
`OpenAIChatClient.chat(mode="message")` (`src/llm/openai_client.py`
lines 105-128): `function.name` (never inspected by the reasoner) and the
parsed `function.arguments` (`Json.null` when absent). -/
structure ReasonToolCall where
  name : Option String
  args : Json

/-- An LLM reply to the reasoner prompt: its (possibly empty) list of tool
calls.  An empty list models both a missing and an empty `tool_calls`. -/
structure ReasonerMsg where
  toolCalls : List ReasonToolCall

/-- `prev_cmd` extraction of `reason_about_command_failure`
(`src/agent/agent_reasoner.py` lines 34-38): `str(step.body.get("cmd") or "")`
for dict bodies, `str(step.body or "")` otherwise. -/
def prevCmdOf (body : Json) : String :=
  if body.isObj then pyStrOrEmpty (body.get "cmd")
  else if pyTruthy body then pyStr body else ""

/-- `(args.get("cmd") or "").strip()` (`src/agent/agent_reasoner.py`
line 94).  A truthy non-string `cmd` raises `AttributeError` on `.strip()`;
the `Except.error` carries that exception. -/
def reasonExtractCmd (args : Json) : Except String String :=
  match args.get "cmd" with
  | none => .ok ""
  | some v =>
      if !pyTruthy v then .ok ""
      else
        match v with
        | .str s => .ok (trimStr s)
        | _ => .error "AttributeError"

/-- `reason_about_command_failure` (`src/agent/agent_reasoner.py`
lines 78-110), given the LLM reply: returns the proposed new command
(`new_step.body = {"cmd": new_cmd}` in the source), `none` when the reply is
ignored (no tool call, non-dict arguments, `action != "retry"`, empty `cmd`,
or `cmd` equal to the prior command after stripping), and `Except.error`
when the `cmd` value is a truthy non-string (the `.strip()` call raises). -/
def reasonAboutCommandFailure (body : Json) (msg : ReasonerMsg) :
    Except String (Option String) :=
  match msg.toolCalls with
  | [] => .ok none
  | tc :: _ =>
      let args := tc.args
      if !args.isObj then .ok none
      else
        match args.get "action" with
        | some (Json.str "retry") =>
            (match reasonExtractCmd args with
             | .error e => .error e
             | .ok newCmd =>
                 if newCmd = "" then .ok none
                 else if newCmd = trimStr (prevCmdOf body) then .ok none
                 else .ok (some newCmd))
        | _ => .ok none

/-- `MAX_ATTEMPTS_PER_COMMAND_STEP` (`src/agent/plan_background_runner.py`
line 161). -/
def maxAttemptsPerCommandStep : Nat := 3

/-- UX events emitted by `invoke_mcp_with_emit`, tagged by emit site. All
three retry constructors carry the `step_retry` kind. -/
inductive RunEv where
  | stepStart (attempt : Nat)
  | stepOk (attempt : Nat)
  | stepErr (attempt : Nat)
  | stepRetryPlain (attempt : Nat)
  | stepRetryReason (attempt : Nat)
  | stepRetryProposed (attempt : Nat) (cmd : String)
deriving DecidableEq

/-- The `kind` string each event is emitted with. -/
def RunEv.kind : RunEv → String
  | .stepStart _ => "step_start"
  | .stepOk _ => "step_ok"
  | .stepErr _ => "step_err"
  | .stepRetryPlain _ => "step_retry"
  | .stepRetryReason _ => "step_retry"
  | .stepRetryProposed _ _ => "step_retry"

/-- How the command retry loop ended. -/
inductive LoopRes where
  | httpErr (sc : Int)
  | okDone (sc : Int)
  | errNoFix (sc : Int)
  | fatal (e : String)
  | exhausted
deriving DecidableEq

/-- Observable behaviour of one `invoke_mcp_with_emit` call: the emitted
events, the bodies handed to `invoke_step` in dispatch order, and the
result.  `exhausted` marks that the supplied response stream ended while
the loop was still re-invoking. -/
structure LoopOut where
  events : List RunEv
  dispatches : List Json
  res : LoopRes

/-- The `while True` loop of `invoke_mcp_with_emit`
(`src/agent/plan_background_runner.py` lines 283-457), parameterised by the
stream of `invoke_step` outcomes (one `(status_code, result)` per dispatch)
and by the stream of reasoner replies (indexed by consultation count).
Non-2xx: emit `step_err` and abort.  `/command` success by payload: emit
`step_ok` and return.  Failure with `attempt < MAX`: bump attempt, emit
`step_retry`, re-invoke with the same body.  Failure with `attempt >= MAX`:
emit `step_retry`, consult the reasoner; a missing or dangerous proposal
emits `step_err` and aborts, an accepted proposal replaces the body with
`{"cmd": new_cmd}`, bumps attempt, emits `step_retry` and re-invokes; an
exception inside the reasoner propagates (`fatal`).  Non-command calls
return `step_ok` after the HTTP check. -/
def invokeMcpWithEmitAux (method path : String) (msgs : Nat → ReasonerMsg) :
    Nat → Json → Nat → List (Int × Json) → LoopOut
  | _, _, _, [] => ⟨[], [], .exhausted⟩
  | attempt, body, consults, (sc, res) :: rest =>
      if ¬ (200 ≤ sc ∧ sc < 300) then
        ⟨[.stepErr attempt], [body], .httpErr sc⟩
      else if isCommandCall method path then
        let fr := commandFailedRunner res
        if fr.1 = false then
          ⟨[.stepOk attempt], [body], .okDone sc⟩
        else if maxAttemptsPerCommandStep ≤ attempt then
          match reasonAboutCommandFailure body (msgs consults) with
          | .error e => ⟨[.stepRetryReason attempt], [body], .fatal e⟩
          | .ok none => ⟨[.stepRetryReason attempt, .stepErr attempt], [body], .errNoFix sc⟩
          | .ok (some c) =>
              if looksDangerous c then
                ⟨[.stepRetryReason attempt, .stepErr attempt], [body], .errNoFix sc⟩
              else
                let out := invokeMcpWithEmitAux method path msgs (attempt + 1)
                  (Json.obj [("cmd", Json.str c)]) (consults + 1) rest
                ⟨.stepRetryReason attempt :: .stepRetryProposed (attempt + 1) c :: out.events,
                  body :: out.dispatches, out.res⟩
        else
          let out := invokeMcpWithEmitAux method path msgs (attempt + 1) body consults rest
          ⟨.stepRetryPlain (attempt + 1) :: out.events, body :: out.dispatches, out.res⟩
      else
        ⟨[.stepOk attempt], [body], .okDone sc⟩

/-- `invoke_mcp_with_emit` from its entry: `attempt = 1`, the original step
body, a leading `step_start` emit. -/
def invokeMcpWithEmit (method path : String) (body : Json)
    (responses : List (Int × Json)) (msgs : Nat → ReasonerMsg) : LoopOut :=
  let out := invokeMcpWithEmitAux method path msgs 1 body 0 responses
  ⟨.stepStart 1 :: out.events, out.dispatches, out.res⟩

/-- An endpoint of a registered tool server, from OpenAPI discovery. -/
structure Endpoint where
  method : String
  path : String

/-- The fields of a registered tool (MCP) that the invoker reads. -/
structure MCP where
  id : String
  is_active : Bool
  endpoints : List Endpoint

/-- The project field the invoker reads: the per-project tool allowlist. -/
structure Project where
  mcp_ids : List String

/-- What the actual HTTP request would do, abstracting `httpx`
(`src/mcp/invoke_sync.py` lines 55-69): either a response (already parsed
to JSON or text) or a raised exception with its class name and message. -/
inductive TransportOutcome where
  | response (sc : Int) (payload : Json)
  | raises (name msg : String)

/-- Result of `invoke_mcp_sync` as observed by its caller. -/
inductive InvokeResult where
  | ok (sc : Int) (payload : Json)
  | invokeError (detail : String)
  | otherExn (name msg : String)

/-- `_endpoint_allowed(mcp, method, path)` (`src/mcp/invoke_sync.py`
lines 22-29). -/
def endpointAllowed (m : MCP) (method path : String) : Bool :=
  let meth := trimStr (upperStr method)
  let p := trimStr path
  m.endpoints.any (fun e => upperStr e.method == meth && e.path == p)

/-- `invoke_mcp_sync` (`src/mcp/invoke_sync.py` lines 32-69): raises
`MCPInvokeError` when the endpoint is not in the allowlist, otherwise
performs the HTTP call and returns `(status_code, payload)`; transport
exceptions propagate. -/
def invokeMcpSync (m : MCP) (method path : String)
    (transport : TransportOutcome) : InvokeResult :=
  if !endpointAllowed m method path then
    .invokeError ("Endpoint no permitido: " ++ method ++ " " ++ path)
  else
    match transport with
    | .response sc payload => .ok sc payload
    | .raises name msg => .otherExn name msg

/-- `invoke_step` of the Background Runner
(`src/agent/plan_background_runner.py` lines 221-250): a total function, so
no exception ever escapes.  Unknown or inactive tool gives
`(404, {"error": "mcp_missing_or_inactive"})`; a tool outside the project
allowlist gives `(403, {"error": "mcp_not_enabled_for_project"})`;
`MCPInvokeError` is caught as `(500, {"error": "mcp_invoke_error",
"detail": str(e)})` and any other exception as
`(500, {"error": "mcp_invoke_exception", "detail": f"{type}: {e}"})`. -/
def invokeStep (mcpLookup : Option MCP) (proj : Option Project)
    (mcp_id method path : String) (transport : TransportOutcome) : Int × Json :=
  match mcpLookup with
  | none => (404, Json.obj [("error", Json.str "mcp_missing_or_inactive")])
  | some m =>
      if !m.is_active then
        (404, Json.obj [("error", Json.str "mcp_missing_or_inactive")])
      else if (match proj with
               | some p => !(p.mcp_ids.contains mcp_id)
               | none => false) then
        (403, Json.obj [("error", Json.str "mcp_not_enabled_for_project")])
      else
        match invokeMcpSync m method path transport with
        | .ok sc payload => (sc, payload)
        | .invokeError d =>
            (500, Json.obj [("error", Json.str "mcp_invoke_error"), ("detail", Json.str d)])
        | .otherExn name msg =>
            (500, Json.obj [("error", Json.str "mcp_invoke_exception"),
                            ("detail", Json.str (name ++ ": " ++ msg))])

/-- A row of the `plan_runs` table, restricted to the columns the claims
read (`src/persistence/sqlite_repos.py` lines 122-136 and 159-184). -/
structure PlanRunRec where
  chat_id : String
  status : String
  current_step_path : Option String := none
  last_event : Option String := none
  planSet : Bool := false
  error : Option String := none
deriving DecidableEq

/-- The run table: run_id keyed association list. -/
abbrev RunsMap : Type := List (String × PlanRunRec)

/-- Row lookup (`SELECT * FROM plan_runs WHERE run_id = ?`). -/
def lookupRun (runs : RunsMap) (run_id : String) : Option PlanRunRec :=
  match runs with
  | [] => none
  | (k, v) :: rest => if k = run_id then some v else lookupRun rest run_id

/-- Replace the row of `run_id` (no-op when absent). -/
def setRun (runs : RunsMap) (run_id : String) (r : PlanRunRec) : RunsMap :=
  List.map (fun p => if p.1 = run_id then (run_id, r) else p) runs

/-- `SqlitePlanRunStore.create` (`src/persistence/sqlite_repos.py`
lines 188-221): inserts a fresh row with `status="draft"`.  A duplicate
primary key makes the `INSERT` raise, leaving the table unchanged; the
model keeps the table unchanged in that case. -/
def createRun (runs : RunsMap) (run_id chat_id : String) : RunsMap :=
  match lookupRun runs run_id with
  | some _ => runs
  | none => runs ++ [(run_id, { chat_id := chat_id, status := "draft" })]

/-- `SqlitePlanRunStore.update` (`src/persistence/sqlite_repos.py`
lines 278-314): last-writer-wins on the provided (non-`None`) fields;
returns whether a row was updated.  Absent rows are untouched. -/
def updateRun (runs : RunsMap) (run_id : String)
    (status current_step_path last_event : Option String)
    (plan : Option Json) (error : Option String) : RunsMap × Bool :=
  match lookupRun runs run_id with
  | none => (runs, false)
  | some r =>
      let r2 : PlanRunRec :=
        { r with
          status := status.getD r.status
          current_step_path := (current_step_path.map some).getD r.current_step_path
          last_event := (last_event.map some).getD r.last_event
          planSet := plan.isSome || r.planSet
          error := (error.map some).getD r.error }
      (setRun runs run_id r2, true)

/-- `SqlitePlanRunStore.try_mark_queued` (`src/persistence/sqlite_repos.py`
lines 318-331): the CAS `UPDATE ... SET status='queued',
last_event='confirm_accepted' WHERE run_id = ? AND status = 'draft'`;
returns whether exactly that row matched. -/
def tryMarkQueued (runs : RunsMap) (run_id : String) : RunsMap × Bool :=
  match lookupRun runs run_id with
  | none => (runs, false)
  | some r =>
      if r.status = "draft" then
        (setRun runs run_id { r with status := "queued", last_event := some "confirm_accepted" }, true)
      else
        (runs, false)

/-- Operations the callers of the run store perform, for interleaving
traces: `create`, `update` (with its optional fields) and the CAS. -/
inductive RunOp where
  | create (run_id chat_id : String)
  | update (run_id : String) (status current_step_path last_event : Option String)
      (plan : Option Json) (error : Option String)
  | cas (run_id : String)

/-- Apply one operation; the second component records the result of a CAS
(`none` for the other operations). -/
def runOpStep (runs : RunsMap) : RunOp → RunsMap × Option Bool
  | .create run_id chat_id => (createRun runs run_id chat_id, none)
  | .update run_id st csp le plan err =>
      let (runs2, ok) := updateRun runs run_id st csp le plan err
      (runs2, some ok)
  | .cas run_id =>
      let (runs2, ok) := tryMarkQueued runs run_id
      (runs2, some ok)

/-- Run a trace of operations from a table state. -/
def runOps (runs : RunsMap) : List RunOp → RunsMap
  | [] => runs
  | op :: rest => runOps (runOpStep runs op).1 rest

/-- How many CAS calls on `run_id` return `true` along a trace. -/
def casTrueCount (runs : RunsMap) (run_id : String) : List RunOp → Nat
  | [] => 0
  | op :: rest =>
      let n := casTrueCount (runOpStep runs op).1 run_id rest
      match op with
      | .cas id =>
          if id = run_id then (if (tryMarkQueued runs id).2 then n + 1 else n) else n
      | _ => n

/-- A row of the `chat_state` table (`src/persistence/sqlite_repos.py`
lines 28-115), as read back by `get_state` (absent row and `NULL` columns
both read as `none`). -/
structure ChatState where
  pending_run_id : Option String := none
  active_run_id : Option String := none
  last_run_id : Option String := none
  last_run_status : Option String := none
  last_run_ts : Option Int := none
deriving DecidableEq

/-- The ensure-active block at the top of `run_plan_in_background`
(`src/agent/plan_background_runner.py` lines 108-121): set `active_run_id`
only when it is unset or already this run; clear `pending_run_id` only when
it is this run. -/
def ensureActiveChat (st : ChatState) (run_id : String) : ChatState :=
  let st1 :=
    if st.active_run_id = none ∨ st.active_run_id = some run_id then
      { st with active_run_id := some run_id }
    else st
  if st.pending_run_id = some run_id then { st1 with pending_run_id := none } else st1

/-- The state-cleanup `finally` block of `run_plan_in_background`
(`src/agent/plan_background_runner.py` lines 565-582): unconditionally
write `last_run_id`, `last_run_status`, `last_run_ts`; clear
`active_run_id` only if it still equals this run, and `pending_run_id`
only if it still equals this run. -/
def finalizeChatState (st : ChatState) (run_id final_status : String) (now : Int) : ChatState :=
  { st with
    last_run_id := some run_id
    last_run_status := some final_status
    last_run_ts := some now
    active_run_id := if st.active_run_id = some run_id then none else st.active_run_id
    pending_run_id := if st.pending_run_id = some run_id then none else st.pending_run_id }

/-- How a background execution terminates: the executor returned a plan
with this status, the 10-minute plan timeout fired, the task was
cancelled, or an internal exception escaped. -/
inductive RunOutcome where
  | completed (planStatus : String)
  | timeout
  | cancelled
  | internalError (msg : String)

/-- The store-visible state `run_plan_in_background` manipulates: the run
table and the owning chat's `chat_state` row. -/
structure Sys5 where
  runs : RunsMap
  chat : ChatState

/-- `run_plan_in_background` (`src/agent/plan_background_runner.py`
lines 91-604) at the level of store effects, with the executor's behaviour
abstracted into a `RunOutcome` (per-step emits only touch
`current_step_path`/`last_event` and cannot change `status`).  In order:
mark running; ensure-active on the chat; note `run_start`; the terminal
update for the outcome (`run_done` with status done/error, or `error`
status for timeout / cancellation / internal error); then the `finally`
block re-reads the stored status (`"unknown"` when the row is missing) and
applies `finalizeChatState`. -/
def runPlanInBackground (run_id : String) (outcome : RunOutcome) (now : Int)
    (s : Sys5) : Sys5 :=
  let runs1 := (updateRun s.runs run_id (some "running") none (some "runner_started") none none).1
  let chat1 := ensureActiveChat s.chat run_id
  let runs2 := (updateRun runs1 run_id none none (some "run_start") none none).1
  let runs3 :=
    match outcome with
    | .completed planStatus =>
        let fs := if planStatus = "error" then "error" else "done"
        (updateRun runs2 run_id (some fs) none (some "run_done") (some (Json.obj [])) none).1
    | .timeout =>
        (updateRun runs2 run_id (some "error") none (some "run_timeout")
          none (some "TimeoutError: plan_timeout")).1
    | .cancelled =>
        (updateRun runs2 run_id (some "error") none (some "runner_cancelled")
          none (some "CancelledError")).1
    | .internalError msg =>
        (updateRun runs2 run_id (some "error") none (some "run_error") none (some msg)).1
  let finalStatus :=
    match lookupRun runs3 run_id with
    | some r => r.status
    | none => "unknown"
  { runs := runs3, chat := finalizeChatState chat1 run_id finalStatus now }

/-- One chat-log message. -/
structure Msg where
  chat_id : String
  role : String
  content : String
deriving DecidableEq

/-- The state Recovery touches: the run table, every chat's `chat_state`
row, and the chat logs. -/
structure Sys6 where
  runs : RunsMap
  chatStates : List (String × ChatState)
  messages : List Msg

/-- Is a run stale at startup (`status in ("queued", "running")`)? -/
def isStale (r : PlanRunRec) : Bool :=
  r.status == "queued" || r.status == "running"

/-- The notice `recover_stale_runs` posts to the owning chat
(`src/lifecycle/recovery.py` lines 25-30). -/
def recoveryNotice (run_id : String) : String :=
  "⚠️ El plan (run_id=" ++ run_id ++ ") fue detenido por recarga del servidor. "
    ++ "Vuelve a confirmarlo si quieres ejecutarlo."

/-- `recover_stale_runs` (`src/lifecycle/recovery.py` lines 2-34, invoked
from the lifespan hook in `src/main.py`): every run in `queued`/`running`
is updated to `status="error"`, `last_event="recovered_after_reload"` with
the restart error text, and a notice is appended to the owning chat; other
runs are untouched. The function never reads or writes `chat_state`. -/
def recoverStaleRuns (s : Sys6) : Sys6 :=
  { runs :=
      s.runs.map (fun p =>
        if isStale p.2 then
          (p.1, { p.2 with
                  status := "error"
                  last_event := some "recovered_after_reload"
                  error := some "Run detenido por recarga del servidor (uvicorn --reload)." })
        else p)
    chatStates := s.chatStates
    messages :=
      s.messages ++ (s.runs.filter (fun p => isStale p.2)).map
        (fun p => ⟨p.2.chat_id, "assistant", recoveryNotice p.1⟩) }

/-- Case-insensitive literal prefix match, returning the remainder. -/
def stripCI : List Char → List Char → Option (List Char)
  | [], s => some s
  | _ :: _, [] => none
  | p :: ps, c :: cs => if c.toLower = p.toLower then stripCI ps cs else none

/-- `\s+` with maximal munch: requires at least one whitespace char. -/
def ws1 : List Char → Option (List Char)
  | c :: cs => if c.isWhitespace then some (cs.dropWhile Char.isWhitespace) else none
  | [] => none

/-- `(.+)$` on the remainder of a stripped input: succeeds iff the
remainder is non-empty and contains no newline (`.` does not cross
newlines and `$` must reach the end). -/
def capRest (s : List Char) : Option (List Char) :=
  if s.isEmpty || s.contains '\n' then none else some s

/-- Match `(?:ejecuta(?:me)?(?:\s+el)?\s+comando\s+|ejecuta\s+)(.+)$` at
one position, alternatives and optionals tried in regex order. -/
def matchEjecutaAt (s : List Char) : Option (List Char) :=
  let alt1 : Option (List Char) :=
    match stripCI "ejecuta".data s with
    | none => none
    | some s1 =>
        let afterEl (s3 : List Char) : Option (List Char) :=
          match ws1 s3 with
          | none => none
          | some s4 =>
              match stripCI "comando".data s4 with
              | none => none
              | some s5 =>
                  match ws1 s5 with
                  | none => none
                  | some s6 => capRest s6
        let tail (s2 : List Char) : Option (List Char) :=
          let withEl : Option (List Char) :=
            match ws1 s2 with
            | none => none
            | some sa =>
                match stripCI "el".data sa with
                | none => none
                | some s3 => afterEl s3
          withEl.orElse (fun _ => afterEl s2)
        match stripCI "me".data s1 with
        | some s2 => (tail s2).orElse (fun _ => tail s1)
        | none => tail s1
  let alt2 : Option (List Char) :=
    match stripCI "ejecuta".data s with
    | none => none
    | some s1 =>
        match ws1 s1 with
        | none => none
        | some s2 => capRest s2
  alt1.orElse (fun _ => alt2)

/-- `re.search`: scan for the leftmost matching position. -/
def searchEjecuta : List Char → Option (List Char)
  | [] => none
  | c :: rest => (matchEjecutaAt (c :: rest)).orElse (fun _ => searchEjecuta rest)

/-- The backtick character (stripped from the extracted command). -/
def backtickChar : Char := Char.ofNat 96

/-- Strip a given character from both ends of a character list. -/
def stripCharEnds (c : Char) (s : List Char) : List Char :=
  ((s.dropWhile (· = c)).reverse.dropWhile (· = c)).reverse

/-- `_extract_command(text)` (`src/web/routes.py` lines 219-225): strip the
input, search for the imperative pattern, then `strip()` and `strip("`")`
the capture; empty results give `None`. -/
def extractCommand (text : String) : Option String :=
  match searchEjecuta (trimStr text).data with
  | none => none
  | some cap =>
      let cmd := String.mk (stripCharEnds backtickChar (trimStr (String.mk cap)).data)
      if cmd = "" then none else some cmd

/-- The step body the direct-command fast path builds
(`src/web/routes.py` line 669): `body = {"cmd": cmd}`, with no
dangerous-command screening anywhere on this path (lines 654-692). -/
def fastPathCommandBody (cmd : String) : Json :=
  Json.obj [("cmd", Json.str cmd)]

/-- Does `s` start with prefix `p`? -/
def startsWithStr (s p : String) : Bool :=
  listStartsWith s.data p.data

/-- Does `s` end with suffix `p`? -/
def endsWithStr (s p : String) : Bool :=
  listStartsWith s.data.reverse p.data.reverse

/-- Does the field list bind key `k` (`k in body`)? -/
def hasKey (fields : List (String × Json)) (k : String) : Bool :=
  (fields.lookup k).isSome

/-- `body[newK] = body.pop(oldK)`: remove the old binding, append the new
one (Python dicts append fresh keys at the end). -/
def renamePop (fields : List (String × Json)) (oldK newK : String) :
    List (String × Json) :=
  match fields.lookup oldK with
  | none => fields
  | some v => (fields.filter (fun p => p.1 ≠ oldK)) ++ [(newK, v)]

/-- The `/command` body normalisation of `api_send`
(`src/web/routes.py` lines 1093-1112).  A non-blank string body is
stripped; if it looks like a JSON object literal it is parsed with the
given `parse` (modelling `json.loads` — a non-dict or failed parse falls
back to wrapping), otherwise it is wrapped as `{"cmd": s}`.  A dict body
then gets `command`/`text` renamed to `cmd` when `cmd` is absent. -/
def normalizeCommandBody (parse : String → Option Json) (body : Json) : Json :=
  let b1 :=
    match body with
    | .str s0 =>
        if trimStr s0 ≠ "" then
          let s := trimStr s0
          if (startsWithStr s "\x7b" && endsWithStr s "\x7d")
              || (startsWithStr s "\x7b\"" && endsWithStr s "\"\x7d") then
            match parse s with
            | some (.obj f) => Json.obj f
            | _ => Json.obj [("cmd", Json.str s)]
          else Json.obj [("cmd", Json.str s)]
        else body
    | _ => body
  match b1 with
  | .obj f =>
      let f2 :=
        if hasKey f "cmd" then f
        else if hasKey f "command" then renamePop f "command" "cmd"
        else if hasKey f "text" then renamePop f "text" "cmd"
        else f
      Json.obj f2
  | _ => b1

/-- The acceptance check after normalisation (`src/web/routes.py`
lines 1121-1126): the body must be a dict with a `cmd` whose `str()` is
non-blank, otherwise the tool call is rejected (and, in the source, the
handler returns before any draft run is created).  Returns the accepted
step body. -/
def acceptedCommandBody (parse : String → Option Json) (body : Json) : Option Json :=
  match normalizeCommandBody parse body with
  | .obj f =>
      match f.lookup "cmd" with
      | some v => if trimStr (pyStr v) ≠ "" then some (Json.obj f) else none
      | none => none
  | _ => none

/-- The operations of the `api_send` prelude, in program order. -/
inductive SendOp where
  | rejectEmpty
  | getChat
  | rejectUnknownChat
  | readState
  | appendUserMessage
  | fastPathDraft
  | confirmOrLlmBranch
deriving DecidableEq

/-- The prelude of `api_send` (`src/web/routes.py` lines 605-697) as an
operation trace: reject blank messages; load the chat (404 when unknown);
read `chat_state` (`pending_run_id`, `active_run_id`, `last_run_*`,
lines 629-641); append the user message (line 652); then either the
direct-command fast path or the confirmation/LLM machinery, both of which
branch on the state read earlier. -/
def apiSendPrelude (text : String) (chatKnown : Bool) : List SendOp :=
  let t := trimStr text
  if t = "" then [.rejectEmpty]
  else if !chatKnown then [.getChat, .rejectUnknownChat]
  else
    [.getChat, .readState, .appendUserMessage] ++
      (if (extractCommand t).isSome then [.fastPathDraft] else [.confirmOrLlmBranch])

/-- An accepted message: non-blank text on a known chat. -/
def acceptedMsg (text : String) (chatKnown : Bool) : Prop :=
  trimStr text ≠ "" ∧ chatKnown = true

/-- `update(status="draft")` is the only store operation that can move a
row back to `draft` (creation inserts fresh rows only). -/
def setsDraftStatus : RunOp → Bool
  | .update _ (some st) _ _ _ _ => st == "draft"
  | _ => false


/-- The status the terminal update writes for each outcome (done only for
a normally completed plan whose own status is not "error"). -/
def finalStoredStatus (outcome : RunOutcome) : String :=
  match outcome with
  | .completed planStatus => if planStatus = "error" then "error" else "done"
  | .timeout => "error"
  | .cancelled => "error"
  | .internalError _ => "error"


/-- Outcome of the `/command` tool-call branch of `api_send`: a rejection
reply (no draft run is created) or a draft with the normalised body. -/
inductive ToolCallOutcome where
  | rejected (reply : String)
  | draft (body : Json)

/-- The tail of the `/command` tool-call branch of `api_send`
(`src/web/routes.py` lines 1121-1174): a body with no non-blank `cmd` is
answered with the rejection reply and the handler returns before
`plan_run_store.create`; otherwise the single-step draft is built from the
normalised body. -/
def commandToolCallOutcome (parse : String → Option Json) (body : Json) : ToolCallOutcome :=
  match acceptedCommandBody parse body with
  | none => .rejected "La llamada a /command requiere body con el campo \x27cmd\x27."
  | some b => .draft b


/-- C10: the command retry loop of `invoke_mcp_with_emit` is not bounded by
`MAX_ATTEMPTS`: with every response a command failure and the reasoner
returning a fresh, distinct, non-dangerous `propose_fix(action="retry")`
proposal at each consultation, a single `/command` step is dispatched six
times — strictly more than `MAX_ATTEMPTS + 1` — the reasoner is consulted
four times (again after each reasoned retry fails), and the loop is still
running when the response stream ends; it stops only when the reasoner
declines (or, outside this model, on the outer plan timeout). -/
theorem C10_retry_loop_unbounded :
    (invokeMcpWithEmit "POST" "/command" (Json.obj [("cmd", Json.str "ls")])
        (List.replicate 6 (200, Json.obj [("status", Json.str "error"), ("exit_code", Json.num 1)]))
        (fun n => ⟨[⟨some "propose_fix",
          Json.obj [("action", Json.str "retry"),
            ("cmd", Json.str ("fix" ++ toString n))]⟩]⟩)).dispatches.length = 6
      ∧ maxAttemptsPerCommandStep + 1 < 6
      ∧ ((invokeMcpWithEmit "POST" "/command" (Json.obj [("cmd", Json.str "ls")])
          (List.replicate 6 (200, Json.obj [("status", Json.str "error"), ("exit_code", Json.num 1)]))
          (fun n => ⟨[⟨some "propose_fix",
            Json.obj [("action", Json.str "retry"),
              ("cmd", Json.str ("fix" ++ toString n))]⟩]⟩)).events.filter
          (fun e => e matches RunEv.stepRetryReason _)).length = 4
      ∧ (invokeMcpWithEmit "POST" "/command" (Json.obj [("cmd", Json.str "ls")])
          (List.replicate 6 (200, Json.obj [("status", Json.str "error"), ("exit_code", Json.num 1)]))
          (fun n => ⟨[⟨some "propose_fix",
            Json.obj [("action", Json.str "retry"),
              ("cmd", Json.str ("fix" ++ toString n))]⟩]⟩)).res = LoopRes.exhausted := by
  refine ⟨by decide, by decide, by decide, by decide⟩

/-- C1 counterexample: the claim that no deny-listed command is ever handed
to the tool invoker is false at a concrete input.  The user message
`"ejecuta rm -rf /"` takes the direct-command fast path of `api_send`,
which extracts `rm -rf /` — matched by the deny-list — builds the step body
`{"cmd": "rm -rf /"}` with no dangerous-command screening, and on execution
the retry loop hands exactly that body to `invoke_step`. -/
theorem C1_counterexample :
    extractCommand "ejecuta rm -rf /" = some "rm -rf /"
      ∧ looksDangerous "rm -rf /" = true
      ∧ pyStrOrEmpty ((fastPathCommandBody "rm -rf /").get "cmd") = "rm -rf /"
      ∧ (invokeMcpWithEmit "POST" "/command" (fastPathCommandBody "rm -rf /")
          [(200, Json.obj [("status", Json.str "ok"), ("exit_code", Json.num 0)])]
          (fun _ => ⟨[]⟩)).dispatches = [fastPathCommandBody "rm -rf /"] := by
  refine ⟨by decide, by decide, by decide, by rfl⟩

/-- C1 (amended): the dangerous-command filter screens only reasoner
proposals.  Every body the retry loop hands to `invoke_step` is either the
step's original body — dispatched unscreened, whatever its origin — or a
reasoner-proposed `{"cmd": c}` object with `_looks_dangerous(c)` false;
moreover the original body is always the first dispatch. -/
theorem C1_amended :
    (∀ (method path : String) (msgs : Nat → ReasonerMsg) (attempt consults : Nat)
        (body : Json) (responses : List (Int × Json)),
      ∀ b ∈ (invokeMcpWithEmitAux method path msgs attempt body consults responses).dispatches,
        b = body ∨ ∃ c, b = Json.obj [("cmd", Json.str c)] ∧ looksDangerous c = false)
    ∧ (∀ (method path : String) (msgs : Nat → ReasonerMsg) (body : Json)
        (sc : Int) (res : Json) (rest : List (Int × Json)),
      (invokeMcpWithEmit method path body ((sc, res) :: rest) msgs).dispatches.head? = some body) := by
  constructor
  · intro method path msgs attempt consults body responses
    induction responses generalizing attempt consults body with
    | nil =>
        intro b hb
        simp [invokeMcpWithEmitAux] at hb
    | cons hd tl ih =>
        obtain ⟨sc, res⟩ := hd
        intro b hb
        simp only [invokeMcpWithEmitAux] at hb
        split at hb
        · simp at hb; exact Or.inl hb
        · split at hb
          · split at hb
            · simp at hb; exact Or.inl hb
            · split at hb
              · split at hb
                · simp at hb; exact Or.inl hb
                · simp at hb; exact Or.inl hb
                · rename_i c heq
                  split at hb
                  · simp at hb; exact Or.inl hb
                  · rename_i hdanger
                    simp only [List.mem_cons] at hb
                    rcases hb with hb | hb
                    · exact Or.inl hb
                    · rcases ih _ _ _ b hb with h | h
                      · exact Or.inr ⟨c, h, by simpa using hdanger⟩
                      · exact Or.inr h
              · simp only [List.mem_cons] at hb
                rcases hb with hb | hb
                · exact Or.inl hb
                · exact ih _ _ _ b hb
          · simp at hb; exact Or.inl hb
  · intro method path msgs body sc res rest
    simp only [invokeMcpWithEmit, invokeMcpWithEmitAux]
    repeat first
      | rfl
      | split

/-- C1 witness: the amended theorem applied at a concrete dispatch. -/
theorem C1_witness :
    (fastPathCommandBody "ls" = fastPathCommandBody "ls"
        ∨ ∃ c, fastPathCommandBody "ls" = Json.obj [("cmd", Json.str c)]
            ∧ looksDangerous c = false)
    ∧ (invokeMcpWithEmit "POST" "/command" (fastPathCommandBody "ls")
        [(200, Json.obj [])] (fun _ => ⟨[]⟩)).dispatches.head?
        = some (fastPathCommandBody "ls") :=
  ⟨C1_amended.1 "POST" "/command" (fun _ => ⟨[]⟩) 1 0 (fastPathCommandBody "ls")
      [(200, Json.obj [])] (fastPathCommandBody "ls")
      (by exact List.mem_singleton.mpr rfl),
    C1_amended.2 "POST" "/command" (fun _ => ⟨[]⟩) (fastPathCommandBody "ls")
      200 (Json.obj []) []⟩

lemma lookupRun_cons (k : String) (v : PlanRunRec) (tl : RunsMap) (id : String) :
    lookupRun ((k, v) :: tl) id = if k = id then some v else lookupRun tl id := rfl

lemma setRun_cons (k : String) (v : PlanRunRec) (tl : RunsMap) (id : String) (r : PlanRunRec) :
    setRun ((k, v) :: tl) id r =
      (if k = id then (id, r) else (k, v)) :: setRun tl id r := by
  simp only [setRun, List.map_cons]

lemma lookup_setRun_self (runs : RunsMap) (id : String) (r0 r : PlanRunRec)
    (h : lookupRun runs id = some r0) :
    lookupRun (setRun runs id r) id = some r := by
  induction runs with
  | nil => simp [lookupRun] at h
  | cons hd tl ih =>
      obtain ⟨k, v⟩ := hd
      rw [setRun_cons]
      by_cases hk : k = id
      · rw [if_pos hk, lookupRun_cons, if_pos rfl]
      · rw [if_neg hk, lookupRun_cons, if_neg hk]
        rw [lookupRun_cons, if_neg hk] at h
        exact ih h

lemma lookup_setRun_other (runs : RunsMap) (id id2 : String) (r : PlanRunRec)
    (hne : id ≠ id2) :
    lookupRun (setRun runs id r) id2 = lookupRun runs id2 := by
  induction runs with
  | nil => rfl
  | cons hd tl ih =>
      obtain ⟨k, v⟩ := hd
      rw [setRun_cons]
      by_cases hk : k = id
      · rw [if_pos hk, lookupRun_cons, if_neg hne, lookupRun_cons, if_neg (hk ▸ hne)]
        exact ih
      · rw [if_neg hk, lookupRun_cons, lookupRun_cons]
        by_cases hk2 : k = id2
        · rw [if_pos hk2, if_pos hk2]
        · rw [if_neg hk2, if_neg hk2]
          exact ih

lemma lookup_append_of_some (l₁ l₂ : RunsMap) (k : String) (r : PlanRunRec)
    (h : lookupRun l₁ k = some r) : lookupRun (l₁ ++ l₂) k = some r := by
  induction l₁ with
  | nil => simp [lookupRun] at h
  | cons hd tl ih =>
      obtain ⟨a, b⟩ := hd
      rw [List.cons_append, lookupRun_cons]
      rw [lookupRun_cons] at h
      by_cases ha : a = k
      · rw [if_pos ha] at h ⊢; exact h
      · rw [if_neg ha] at h ⊢; exact ih h

lemma tryMarkQueued_true_iff (runs : RunsMap) (run_id : String) :
    (tryMarkQueued runs run_id).2 = true ↔
      ∃ r, lookupRun runs run_id = some r ∧ r.status = "draft" := by
  cases hl : lookupRun runs run_id with
  | none => simp [tryMarkQueued, hl]
  | some r =>
      by_cases hd : r.status = "draft"
      · simp [tryMarkQueued, hl, hd]
      · simp [tryMarkQueued, hl, hd]

lemma tryMarkQueued_true_fst (runs : RunsMap) (run_id : String) (r : PlanRunRec)
    (h : lookupRun runs run_id = some r) (hd : r.status = "draft") :
    (tryMarkQueued runs run_id).1 =
      setRun runs run_id { r with status := "queued", last_event := some "confirm_accepted" } := by
  simp only [tryMarkQueued, h, if_pos hd]

lemma tryMarkQueued_false_fst (runs : RunsMap) (run_id : String)
    (h : (tryMarkQueued runs run_id).2 = false) :
    (tryMarkQueued runs run_id).1 = runs := by
  cases hl : lookupRun runs run_id with
  | none => simp [tryMarkQueued, hl]
  | some r =>
      by_cases hd : r.status = "draft"
      · simp [tryMarkQueued, hl, hd] at h
      · simp [tryMarkQueued, hl, hd]

lemma lookup_tryMarkQueued_other (runs : RunsMap) (id id2 : String) (hne : id ≠ id2) :
    lookupRun (tryMarkQueued runs id).1 id2 = lookupRun runs id2 := by
  cases hl : lookupRun runs id with
  | none => simp [tryMarkQueued, hl]
  | some r =>
      by_cases hd : r.status = "draft"
      · simp only [tryMarkQueued, hl, if_pos hd]
        exact lookup_setRun_other runs id id2 _ hne
      · simp [tryMarkQueued, hl, hd]

lemma lookup_createRun_of_some (runs : RunsMap) (id chat id2 : String) (r : PlanRunRec)
    (h : lookupRun runs id2 = some r) :
    lookupRun (createRun runs id chat) id2 = some r := by
  unfold createRun
  cases lookupRun runs id with
  | some _ => exact h
  | none => exact lookup_append_of_some runs _ id2 r h

lemma lookup_updateRun_other (runs : RunsMap) (id id2 : String)
    (st csp le : Option String) (plan : Option Json) (err : Option String)
    (hne : id ≠ id2) :
    lookupRun (updateRun runs id st csp le plan err).1 id2 = lookupRun runs id2 := by
  unfold updateRun
  cases lookupRun runs id with
  | none => rfl
  | some r => exact lookup_setRun_other runs id id2 _ hne

lemma lookup_updateRun_self (runs : RunsMap) (id : String)
    (st csp le : Option String) (plan : Option Json) (err : Option String)
    (r : PlanRunRec) (h : lookupRun runs id = some r) :
    lookupRun (updateRun runs id st csp le plan err).1 id =
      some { r with
             status := st.getD r.status
             current_step_path := (csp.map some).getD r.current_step_path
             last_event := (le.map some).getD r.last_event
             planSet := plan.isSome || r.planSet
             error := (err.map some).getD r.error } := by
  unfold updateRun
  rw [h]
  exact lookup_setRun_self runs id r _ h

lemma statusNotDraft_preserved (run_id : String) (op : RunOp) (runs : RunsMap)
    (hop : setsDraftStatus op = false)
    (hQ : ∃ r, lookupRun runs run_id = some r ∧ r.status ≠ "draft") :
    ∃ r, lookupRun (runOpStep runs op).1 run_id = some r ∧ r.status ≠ "draft" := by
  obtain ⟨r, hr, hst⟩ := hQ
  cases op with
  | create id chat =>
      exact ⟨r, lookup_createRun_of_some runs id chat run_id r hr, hst⟩
  | update id st csp le plan err =>
      by_cases hid : id = run_id
      · subst hid
        refine ⟨_, lookup_updateRun_self runs id st csp le plan err r hr, ?_⟩
        cases st with
        | none => simpa using hst
        | some s =>
            simp only [setsDraftStatus, beq_eq_false_iff_ne, ne_eq] at hop
            simpa using hop
      · refine ⟨r, ?_, hst⟩
        rw [show (runOpStep runs (RunOp.update id st csp le plan err)).1
              = (updateRun runs id st csp le plan err).1 from rfl]
        rw [lookup_updateRun_other runs id run_id st csp le plan err hid]
        exact hr
  | cas id =>
      by_cases hid : id = run_id
      · subst hid
        have hfalse : (tryMarkQueued runs id).2 = false := by
          cases hcas : (tryMarkQueued runs id).2 with
          | false => rfl
          | true =>
              obtain ⟨r2, hr2, hd2⟩ := (tryMarkQueued_true_iff runs id).mp hcas
              rw [hr] at hr2
              cases hr2
              exact absurd hd2 hst
        refine ⟨r, ?_, hst⟩
        rw [show (runOpStep runs (RunOp.cas id)).1 = (tryMarkQueued runs id).1 from rfl]
        rw [tryMarkQueued_false_fst runs id hfalse]
        exact hr
      · refine ⟨r, ?_, hst⟩
        rw [show (runOpStep runs (RunOp.cas id)).1 = (tryMarkQueued runs id).1 from rfl]
        rw [lookup_tryMarkQueued_other runs id run_id hid]
        exact hr

lemma casTrueCount_zero (run_id : String) (ops : List RunOp) :
    ∀ runs : RunsMap, (∀ op ∈ ops, setsDraftStatus op = false) →
      (∃ r, lookupRun runs run_id = some r ∧ r.status ≠ "draft") →
      casTrueCount runs run_id ops = 0 := by
  induction ops with
  | nil => intro runs _ _; rfl
  | cons op rest ih =>
      intro runs hops hQ
      have hop : setsDraftStatus op = false := hops op (List.mem_cons_self op rest)
      have hrest : ∀ o ∈ rest, setsDraftStatus o = false :=
        fun o ho => hops o (List.mem_cons_of_mem op ho)
      have h0 := ih (runOpStep runs op).1 hrest (statusNotDraft_preserved run_id op runs hop hQ)
      cases op with
      | create id chat => simpa [casTrueCount] using h0
      | update id st csp le plan err => simpa [casTrueCount] using h0
      | cas id =>
          by_cases hid : id = run_id
          · subst hid
            obtain ⟨r, hr, hst⟩ := hQ
            have hfalse : (tryMarkQueued runs id).2 = false := by
              cases hcas : (tryMarkQueued runs id).2 with
              | false => rfl
              | true =>
                  obtain ⟨r2, hr2, hd2⟩ := (tryMarkQueued_true_iff runs id).mp hcas
                  rw [hr] at hr2
                  cases hr2
                  exact absurd hd2 hst
            simpa [casTrueCount, hfalse] using h0
          · simpa [casTrueCount, hid] using h0

lemma casTrueCount_le_one (run_id : String) (ops : List RunOp) :
    ∀ runs : RunsMap, (∀ op ∈ ops, setsDraftStatus op = false) →
      casTrueCount runs run_id ops ≤ 1 := by
  induction ops with
  | nil => intro runs _; simp [casTrueCount]
  | cons op rest ih =>
      intro runs hops
      have hrest : ∀ o ∈ rest, setsDraftStatus o = false :=
        fun o ho => hops o (List.mem_cons_of_mem op ho)
      cases op with
      | create id chat => simpa [casTrueCount] using ih _ hrest
      | update id st csp le plan err => simpa [casTrueCount] using ih _ hrest
      | cas id =>
          by_cases hid : id = run_id
          · subst hid
            by_cases hcas : (tryMarkQueued runs id).2 = true
            · obtain ⟨r, hr, hd⟩ := (tryMarkQueued_true_iff runs id).mp hcas
              have hQ2 : ∃ r2, lookupRun (tryMarkQueued runs id).1 id = some r2
                  ∧ r2.status ≠ "draft" := by
                refine ⟨{ r with status := "queued", last_event := some "confirm_accepted" },
                  ?_, by simp⟩
                rw [tryMarkQueued_true_fst runs id r hr hd]
                exact lookup_setRun_self runs id r _ hr
              have h0 := casTrueCount_zero id rest _ hrest hQ2
              simp [casTrueCount, runOpStep, hcas, h0]
            · have hfalse : (tryMarkQueued runs id).2 = false := by
                cases h : (tryMarkQueued runs id).2 with
                | false => rfl
                | true => exact absurd h hcas
              have h1 := ih (runOpStep runs (RunOp.cas id)).1 hrest
              simpa [casTrueCount, hfalse] using h1
          · have h1 := ih (runOpStep runs (RunOp.cas id)).1 hrest
            simpa [casTrueCount, hid] using h1

/-- C2 counterexample: `try_mark_queued` can return `true` twice for the
same run over the process lifetime, because `update` can (and, in
`api_send`, does) write `status="draft"` after creation and thereby re-arm
the CAS.  Concretely: create, CAS (true), `update(status="draft")`, CAS
(true) again — two successes. -/
theorem C2_counterexample :
    casTrueCount [] "r1"
      [RunOp.create "r1" "c1", RunOp.cas "r1",
       RunOp.update "r1" (some "draft") none none none none, RunOp.cas "r1"] = 2 := by
  decide

/-- C2 (amended): `try_mark_queued(run_id)` returns `true` iff the run
exists with `status="draft"`, in which case it sets `status="queued"` and
`last_event="confirm_accepted"`; and along any interleaving of
create/update/CAS operations in which no `update` sets `status="draft"`,
at most one CAS per run_id returns `true`. -/
theorem C2_amended :
    (∀ (runs : RunsMap) (run_id : String),
      ((tryMarkQueued runs run_id).2 = true ↔
        ∃ r, lookupRun runs run_id = some r ∧ r.status = "draft")
      ∧ ∀ r, lookupRun runs run_id = some r → r.status = "draft" →
          lookupRun (tryMarkQueued runs run_id).1 run_id =
            some { r with status := "queued", last_event := some "confirm_accepted" })
    ∧ (∀ (ops : List RunOp) (runs : RunsMap) (run_id : String),
        (∀ op ∈ ops, setsDraftStatus op = false) →
        casTrueCount runs run_id ops ≤ 1) := by
  refine ⟨fun runs run_id => ⟨tryMarkQueued_true_iff runs run_id, ?_⟩,
          fun ops runs run_id h => casTrueCount_le_one run_id ops runs h⟩
  intro r hr hd
  rw [tryMarkQueued_true_fst runs run_id r hr hd]
  exact lookup_setRun_self runs run_id r _ hr

/-- C2 witness: the amended theorem applied at a concrete store state and a
concrete draft-free trace. -/
theorem C2_witness :
    ((tryMarkQueued [("r1", { chat_id := "c1", status := "draft" })] "r1").2 = true
      ↔ ∃ r, lookupRun [("r1", { chat_id := "c1", status := "draft" })] "r1" = some r
          ∧ r.status = "draft")
    ∧ casTrueCount [("r1", { chat_id := "c1", status := "draft" })] "r1"
        [RunOp.cas "r1", RunOp.cas "r1", RunOp.update "r1" (some "error") none none none none]
        ≤ 1 :=
  ⟨(C2_amended.1 [("r1", { chat_id := "c1", status := "draft" })] "r1").1,
    C2_amended.2 [RunOp.cas "r1", RunOp.cas "r1",
        RunOp.update "r1" (some "error") none none none none]
      [("r1", { chat_id := "c1", status := "draft" })] "r1" (by decide)⟩

/-- C3 counterexample: the claim requires `status == "ok"` for a `done`
step, but the executor lowercases (and strips) the status first, so the
payload `{"status": "OK", "exit_code": 0}` — whose status is not the string
`"ok"` — still yields a `done` step. -/
theorem C3_counterexample :
    (mcpStepOutcome (some "POST") (some "/command") 200
        (Json.obj [("status", Json.str "OK"), ("exit_code", Json.num 0)])).status = "done"
      ∧ pyStrOrEmpty ((Json.obj [("status", Json.str "OK"), ("exit_code", Json.num 0)]).get
          "status") = "OK"
      ∧ "OK" ≠ "ok" := by
  refine ⟨by decide, by decide, by decide⟩

/-- C3 (amended): for a `POST /command` step of `execute_plan_run`, the
final status is `done` iff the payload is a JSON object whose `status`
matches `"ok"` after `str()`, lowercasing and stripping, with `exit_code`
coercing to `0` (absent, null or non-numeric counts as `0`); otherwise the
status is `error` and the recorded reason is the stripped `stderr` if it is
a non-blank string, else the stripped `stdout`, else the synthesized
failure string naming status and exit_code. -/
theorem C3_amended (result : Json) (sc : Int) :
    ((mcpStepOutcome (some "POST") (some "/command") sc result).status = "done" ↔
      (result.isObj = true
        ∧ trimStr (lowerStr (pyStrOrEmpty (result.get "status"))) = "ok"
        ∧ pyIntCoerce (result.get "exit_code") = 0))
    ∧ ((mcpStepOutcome (some "POST") (some "/command") sc result).status = "done"
        ∨ (mcpStepOutcome (some "POST") (some "/command") sc result).status = "error")
    ∧ ((mcpStepOutcome (some "POST") (some "/command") sc result).status = "error" →
        (mcpStepOutcome (some "POST") (some "/command") sc result).error
          = some (commandFailedExec result).2)
    ∧ (result.isObj = true → cmdMsg result ≠ "" →
        (commandFailedExec result).2 = cmdMsg result)
    ∧ (result.isObj = true → cmdMsg result = "" →
        trimStr (lowerStr (pyStrOrEmpty (result.get "status"))) = "ok" →
        pyIntCoerce (result.get "exit_code") = 0 →
        (commandFailedExec result).2 = "OK")
    ∧ (result.isObj = true → cmdMsg result = "" →
        ¬ (trimStr (lowerStr (pyStrOrEmpty (result.get "status"))) = "ok"
            ∧ pyIntCoerce (result.get "exit_code") = 0) →
        (commandFailedExec result).2 =
          "/command falló (status="
            ++ (if trimStr (lowerStr (pyStrOrEmpty (result.get "status"))) = "" then "unknown"
                else trimStr (lowerStr (pyStrOrEmpty (result.get "status"))))
            ++ ", exit_code=" ++ pyStrRawOpt (result.get "exit_code") ++ ")") := by
  have hcmd : isCommandCallOpt (some "POST") (some "/command") = true := by decide
  by_cases hobj : result.isObj
  · by_cases hst : trimStr (lowerStr (pyStrOrEmpty (result.get "status"))) = "ok"
    · by_cases hec : pyIntCoerce (result.get "exit_code") = 0
      · by_cases hmsg : cmdMsg result = ""
        all_goals
          refine ⟨?_, ?_, ?_, ?_, ?_, ?_⟩ <;>
            simp [mcpStepOutcome, commandFailedExec, hcmd, hobj, hst, hec, hmsg]
      · by_cases hmsg : cmdMsg result = ""
        all_goals
          refine ⟨?_, ?_, ?_, ?_, ?_, ?_⟩ <;>
            simp [mcpStepOutcome, commandFailedExec, hcmd, hobj, hst, hec, hmsg]
    · by_cases hec : pyIntCoerce (result.get "exit_code") = 0
      · by_cases hmsg : cmdMsg result = ""
        all_goals
          refine ⟨?_, ?_, ?_, ?_, ?_, ?_⟩ <;>
            simp [mcpStepOutcome, commandFailedExec, hcmd, hobj, hst, hec, hmsg]
      · by_cases hmsg : cmdMsg result = ""
        all_goals
          refine ⟨?_, ?_, ?_, ?_, ?_, ?_⟩ <;>
            simp [mcpStepOutcome, commandFailedExec, hcmd, hobj, hst, hec, hmsg]
  · refine ⟨?_, ?_, ?_, ?_, ?_, ?_⟩ <;>
      simp [mcpStepOutcome, commandFailedExec, hcmd, hobj]

/-- C3 witness: the amended theorem applied to a failing payload carrying a
non-blank stderr. -/
theorem C3_witness :
    (commandFailedExec (Json.obj [("status", Json.str "error"), ("exit_code", Json.num 1),
        ("stderr", Json.str " boom ")])).2
      = cmdMsg (Json.obj [("status", Json.str "error"), ("exit_code", Json.num 1),
        ("stderr", Json.str " boom ")]) :=
  (C3_amended (Json.obj [("status", Json.str "error"), ("exit_code", Json.num 1),
      ("stderr", Json.str " boom ")]) 200).2.2.2.1 (by decide) (by decide)

/-- C5: whenever `run_plan_in_background` completes — normal finish,
timeout, internal error or cancellation — the stored run status is `done`
or `error` and the finalization block rewrites ChatState to
`finalizeChatState` of that status: `last_run_id = run_id`, `last_run_ts`
set, `last_run_status` equal to the stored final status; `active_run_id`
and `pending_run_id` are cleared only when they still equal this run, and
no other ChatState field is modified. -/
theorem C5_finalization (run_id : String) (outcome : RunOutcome) (now : Int) (s : Sys5)
    (r0 : PlanRunRec) (h : lookupRun s.runs run_id = some r0) :
    ((lookupRun (runPlanInBackground run_id outcome now s).runs run_id).map
        PlanRunRec.status = some (finalStoredStatus outcome)
      ∧ (finalStoredStatus outcome = "done" ∨ finalStoredStatus outcome = "error")
      ∧ (runPlanInBackground run_id outcome now s).chat
          = finalizeChatState (ensureActiveChat s.chat run_id) run_id
              (finalStoredStatus outcome) now)
    ∧ (∀ (st : ChatState) (fs : String) (ts : Int),
        (finalizeChatState st run_id fs ts).last_run_id = some run_id
        ∧ (finalizeChatState st run_id fs ts).last_run_status = some fs
        ∧ (finalizeChatState st run_id fs ts).last_run_ts = some ts
        ∧ (finalizeChatState st run_id fs ts).active_run_id
            = (if st.active_run_id = some run_id then none else st.active_run_id)
        ∧ (finalizeChatState st run_id fs ts).pending_run_id
            = (if st.pending_run_id = some run_id then none else st.pending_run_id)) := by
  refine ⟨?_, fun st fs ts => ⟨rfl, rfl, rfl, rfl, rfl⟩⟩
  have h1 := lookup_updateRun_self s.runs run_id (some "running") none
    (some "runner_started") none none r0 h
  have h2 := lookup_updateRun_self _ run_id none none (some "run_start") none none _ h1
  cases outcome with
  | completed planStatus =>
      have h3 := lookup_updateRun_self _ run_id
        (some (if planStatus = "error" then "error" else "done")) none
        (some "run_done") (some (Json.obj [])) none _ h2
      refine ⟨?_, ?_, ?_⟩
      · simp only [runPlanInBackground]
        rw [h3]
        simp [finalStoredStatus]
      · by_cases hps : planStatus = "error" <;> simp [finalStoredStatus, hps]
      · simp only [runPlanInBackground]
        rw [h3]
        simp [finalStoredStatus]
  | timeout =>
      have h3 := lookup_updateRun_self _ run_id (some "error") none
        (some "run_timeout") none (some "TimeoutError: plan_timeout") _ h2
      refine ⟨?_, by simp [finalStoredStatus], ?_⟩
      · simp only [runPlanInBackground]
        rw [h3]
        simp [finalStoredStatus]
      · simp only [runPlanInBackground]
        rw [h3]
        simp [finalStoredStatus]
  | cancelled =>
      have h3 := lookup_updateRun_self _ run_id (some "error") none
        (some "runner_cancelled") none (some "CancelledError") _ h2
      refine ⟨?_, by simp [finalStoredStatus], ?_⟩
      · simp only [runPlanInBackground]
        rw [h3]
        simp [finalStoredStatus]
      · simp only [runPlanInBackground]
        rw [h3]
        simp [finalStoredStatus]
  | internalError msg =>
      have h3 := lookup_updateRun_self _ run_id (some "error") none
        (some "run_error") none (some msg) _ h2
      refine ⟨?_, by simp [finalStoredStatus], ?_⟩
      · simp only [runPlanInBackground]
        rw [h3]
        simp [finalStoredStatus]
      · simp only [runPlanInBackground]
        rw [h3]
        simp [finalStoredStatus]

/-- C5 witness: the finalization theorem at a concrete timed-out run whose
chat still holds it as active, with an unrelated pending draft that must
survive. -/
theorem C5_witness :
    ((lookupRun (runPlanInBackground "r" RunOutcome.timeout 5
          ⟨[("r", { chat_id := "c", status := "queued" })],
            { active_run_id := some "r", pending_run_id := some "other" }⟩).runs "r").map
        PlanRunRec.status = some (finalStoredStatus RunOutcome.timeout)
      ∧ (finalStoredStatus RunOutcome.timeout = "done"
          ∨ finalStoredStatus RunOutcome.timeout = "error")
      ∧ (runPlanInBackground "r" RunOutcome.timeout 5
          ⟨[("r", { chat_id := "c", status := "queued" })],
            { active_run_id := some "r", pending_run_id := some "other" }⟩).chat
          = finalizeChatState
              (ensureActiveChat
                { active_run_id := some "r", pending_run_id := some "other" } "r")
              "r" (finalStoredStatus RunOutcome.timeout) 5)
    ∧ (∀ (st : ChatState) (fs : String) (ts : Int),
        (finalizeChatState st "r" fs ts).last_run_id = some "r"
        ∧ (finalizeChatState st "r" fs ts).last_run_status = some fs
        ∧ (finalizeChatState st "r" fs ts).last_run_ts = some ts
        ∧ (finalizeChatState st "r" fs ts).active_run_id
            = (if st.active_run_id = some "r" then none else st.active_run_id)
        ∧ (finalizeChatState st "r" fs ts).pending_run_id
            = (if st.pending_run_id = some "r" then none else st.pending_run_id)) :=
  C5_finalization "r" RunOutcome.timeout 5
    ⟨[("r", { chat_id := "c", status := "queued" })],
      { active_run_id := some "r", pending_run_id := some "other" }⟩
    { chat_id := "c", status := "queued" } (by decide)

/-- C6 counterexample: Recovery transitions a stale run to `error` and
posts the notice, but it never touches `chat_state`: after
`recover_stale_runs`, the owning chat still has `active_run_id` pointing at
the recovered run — the claim that it is cleared before any new request is
served is false. -/
theorem C6_counterexample :
    ((recoverStaleRuns ⟨[("r1", { chat_id := "c1", status := "queued" })],
        [("c1", { active_run_id := some "r1" })], []⟩).chatStates.lookup "c1").map
      ChatState.active_run_id = some (some "r1")
    ∧ (some (some "r1") : Option (Option String)) ≠ some none
    ∧ (lookupRun (recoverStaleRuns ⟨[("r1", { chat_id := "c1", status := "queued" })],
        [("c1", { active_run_id := some "r1" })], []⟩).runs "r1").map
      PlanRunRec.status = some "error" := by
  refine ⟨by decide, by decide, by decide⟩

/-- C6 (amended): at process start `recover_stale_runs` transitions every
`queued`/`running` run to `error` with `last_event="recovered_after_reload"`
and the restart error reason, appends a notice to the owning chat, and
leaves runs in any other status unchanged; it does not modify any chat's
ChatState, so a stale `active_run_id` survives recovery. -/
theorem C6_amended (s : Sys6) :
    (recoverStaleRuns s).chatStates = s.chatStates
    ∧ (∀ id r, (id, r) ∈ s.runs → isStale r = true →
        ((id, { r with
                  status := "error"
                  last_event := some "recovered_after_reload"
                  error := some "Run detenido por recarga del servidor (uvicorn --reload)." })
            ∈ (recoverStaleRuns s).runs
          ∧ Msg.mk r.chat_id "assistant" (recoveryNotice id) ∈ (recoverStaleRuns s).messages))
    ∧ (∀ id r, (id, r) ∈ s.runs → isStale r = false → (id, r) ∈ (recoverStaleRuns s).runs)
    ∧ (∀ m ∈ s.messages, m ∈ (recoverStaleRuns s).messages) := by
  refine ⟨rfl, ?_, ?_, ?_⟩
  · intro id r hmem hst
    constructor
    · exact List.mem_map.mpr ⟨(id, r), hmem, by simp [hst]⟩
    · simp only [recoverStaleRuns, List.mem_append]
      exact Or.inr (List.mem_map.mpr ⟨(id, r), List.mem_filter.mpr ⟨hmem, hst⟩, rfl⟩)
  · intro id r hmem hst
    exact List.mem_map.mpr ⟨(id, r), hmem, by simp [hst]⟩
  · intro m hm
    simp only [recoverStaleRuns, List.mem_append]
    exact Or.inl hm

/-- C6 witness: the amended theorem applied to a store with one running
run. -/
theorem C6_witness :
    ((recoverStaleRuns ⟨[("r1", { chat_id := "c1", status := "running" })], [], []⟩).chatStates
        = ([] : List (String × ChatState)))
    ∧ (("r1", ({ chat_id := "c1"
                 status := "error"
                 last_event := some "recovered_after_reload"
                 error := some "Run detenido por recarga del servidor (uvicorn --reload)." } : PlanRunRec))
        ∈ (recoverStaleRuns ⟨[("r1", { chat_id := "c1", status := "running" })], [], []⟩).runs)
    ∧ Msg.mk "c1" "assistant" (recoveryNotice "r1")
        ∈ (recoverStaleRuns ⟨[("r1", { chat_id := "c1", status := "running" })], [], []⟩).messages :=
  ⟨(C6_amended ⟨[("r1", { chat_id := "c1", status := "running" })], [], []⟩).1,
    ((C6_amended ⟨[("r1", { chat_id := "c1", status := "running" })], [], []⟩).2.1
      "r1" { chat_id := "c1", status := "running" } (by decide) (by decide)).1,
    ((C6_amended ⟨[("r1", { chat_id := "c1", status := "running" })], [], []⟩).2.1
      "r1" { chat_id := "c1", status := "running" } (by decide) (by decide)).2⟩

/-- C7 counterexample: an unknown (or inactive) tool is rejected with a
`404` — not a 5xx-style code — and its `{error}` payload carries no
`detail` key, so the claimed uniform `(5xx, {error, detail})` shape is
false (the invoker still returns rather than raising). -/
theorem C7_counterexample :
    (invokeStep none none "m1" "POST" "/command"
        (TransportOutcome.response 200 Json.null)).1 = 404
    ∧ ¬ (500 ≤ (invokeStep none none "m1" "POST" "/command"
          (TransportOutcome.response 200 Json.null)).1
        ∧ (invokeStep none none "m1" "POST" "/command"
            (TransportOutcome.response 200 Json.null)).1 < 600)
    ∧ ((invokeStep none none "m1" "POST" "/command"
        (TransportOutcome.response 200 Json.null)).2.get "detail").isNone = true := by
  refine ⟨by decide, by decide, by decide⟩

/-- C7 (amended): `invoke_step` is total — no exception reaches its caller —
and classifies every failure as a returned pair: unknown/inactive tool
gives `(404, {error})`, project-allowlist rejection gives `(403, {error})`
(both without a `detail` field and not 5xx), while endpoint-allowlist
rejection (`MCPInvokeError`) and transport exceptions give
`(500, {error, detail})`; a transport response passes through unchanged. -/
theorem C7_amended (mcpLookup : Option MCP) (proj : Option Project)
    (mcp_id method path : String) (transport : TransportOutcome) :
    (mcpLookup = none →
      (invokeStep mcpLookup proj mcp_id method path transport).1 = 404
      ∧ pyStrOrEmpty ((invokeStep mcpLookup proj mcp_id method path transport).2.get "error")
          = "mcp_missing_or_inactive"
      ∧ ((invokeStep mcpLookup proj mcp_id method path transport).2.get "detail").isNone = true)
    ∧ (∀ m, mcpLookup = some m → m.is_active = false →
      (invokeStep mcpLookup proj mcp_id method path transport).1 = 404
      ∧ pyStrOrEmpty ((invokeStep mcpLookup proj mcp_id method path transport).2.get "error")
          = "mcp_missing_or_inactive"
      ∧ ((invokeStep mcpLookup proj mcp_id method path transport).2.get "detail").isNone = true)
    ∧ (∀ m p, mcpLookup = some m → m.is_active = true → proj = some p →
        p.mcp_ids.contains mcp_id = false →
      (invokeStep mcpLookup proj mcp_id method path transport).1 = 403
      ∧ pyStrOrEmpty ((invokeStep mcpLookup proj mcp_id method path transport).2.get "error")
          = "mcp_not_enabled_for_project"
      ∧ ((invokeStep mcpLookup proj mcp_id method path transport).2.get "detail").isNone = true)
    ∧ (∀ m, mcpLookup = some m → m.is_active = true →
        (∀ p, proj = some p → p.mcp_ids.contains mcp_id = true) →
        endpointAllowed m method path = false →
      (invokeStep mcpLookup proj mcp_id method path transport).1 = 500
      ∧ pyStrOrEmpty ((invokeStep mcpLookup proj mcp_id method path transport).2.get "error")
          = "mcp_invoke_error"
      ∧ ((invokeStep mcpLookup proj mcp_id method path transport).2.get "detail").isSome = true)
    ∧ (∀ m name emsg, mcpLookup = some m → m.is_active = true →
        (∀ p, proj = some p → p.mcp_ids.contains mcp_id = true) →
        endpointAllowed m method path = true →
        transport = TransportOutcome.raises name emsg →
      (invokeStep mcpLookup proj mcp_id method path transport).1 = 500
      ∧ pyStrOrEmpty ((invokeStep mcpLookup proj mcp_id method path transport).2.get "error")
          = "mcp_invoke_exception"
      ∧ ((invokeStep mcpLookup proj mcp_id method path transport).2.get "detail").isSome = true)
    ∧ (∀ m sc payload, mcpLookup = some m → m.is_active = true →
        (∀ p, proj = some p → p.mcp_ids.contains mcp_id = true) →
        endpointAllowed m method path = true →
        transport = TransportOutcome.response sc payload →
        invokeStep mcpLookup proj mcp_id method path transport = (sc, payload)) := by
  refine ⟨?_, ?_, ?_, ?_, ?_, ?_⟩
  · intro h; subst h
    exact ⟨rfl, rfl, rfl⟩
  · intro m h hact; subst h
    simp only [invokeStep, hact]
    exact ⟨rfl, rfl, rfl⟩
  · intro m p h hact hp hcontains; subst h; subst hp
    simp only [invokeStep, hact, hcontains]
    exact ⟨rfl, rfl, rfl⟩
  · intro m h hact hproj hep; subst h
    cases proj with
    | none =>
        simp only [invokeStep, invokeMcpSync, hact, hep]
        exact ⟨rfl, rfl, rfl⟩
    | some p =>
        have hp := hproj p rfl
        simp only [invokeStep, invokeMcpSync, hact, hp, hep]
        exact ⟨rfl, rfl, rfl⟩
  · intro m name emsg h hact hproj hep htr; subst h; subst htr
    cases proj with
    | none =>
        simp only [invokeStep, invokeMcpSync, hact, hep]
        exact ⟨rfl, rfl, rfl⟩
    | some p =>
        have hp := hproj p rfl
        simp only [invokeStep, invokeMcpSync, hact, hp, hep]
        exact ⟨rfl, rfl, rfl⟩
  · intro m sc payload h hact hproj hep htr; subst h; subst htr
    cases proj with
    | none =>
        simp only [invokeStep, invokeMcpSync, hact, hep]
        rfl
    | some p =>
        have hp := hproj p rfl
        simp only [invokeStep, invokeMcpSync, hact, hp, hep]
        rfl

/-- C7 witness: a successful passthrough invocation on an active tool whose
endpoint set allows `POST /command`. -/
theorem C7_witness :
    invokeStep (some { id := "m1", is_active := true, endpoints := [⟨"POST", "/command"⟩] })
        none "m1" "POST" "/command" (TransportOutcome.response 200 (Json.obj []))
      = (200, Json.obj []) :=
  (C7_amended (some { id := "m1", is_active := true, endpoints := [⟨"POST", "/command"⟩] })
      none "m1" "POST" "/command"
      (TransportOutcome.response 200 (Json.obj []))).2.2.2.2.2
    { id := "m1", is_active := true, endpoints := [⟨"POST", "/command"⟩] } 200 (Json.obj [])
    rfl rfl (fun p hp => Option.noConfusion hp) (by decide) rfl

lemma listStartsWith_pair {l : List Char} {a b : Char}
    (h : listStartsWith l [a, b] = true) : listStartsWith l [a] = true := by
  cases l with
  | nil => simp [listStartsWith] at h
  | cons c cs =>
      cases cs with
      | nil =>
          simp [listStartsWith] at h
      | cons d ds =>
          simp [listStartsWith] at h ⊢
          exact h.1

lemma startsWith_brace_quote {S : String} (h : startsWithStr S "\x7b\"" = true) :
    startsWithStr S "\x7b" = true := by
  unfold startsWithStr at h ⊢
  have e2 : ("\x7b\"" : String).data = ['\x7b', '"'] := by decide
  have e1 : ("\x7b" : String).data = ['\x7b'] := by decide
  rw [e2] at h
  rw [e1]
  exact listStartsWith_pair h

lemma endsWith_quote_brace {S : String} (h : endsWithStr S "\"\x7d" = true) :
    endsWithStr S "\x7d" = true := by
  unfold endsWithStr at h ⊢
  have e2 : ("\"\x7d" : String).data.reverse = ['\x7d', '"'] := by decide
  have e1 : ("\x7d" : String).data.reverse = ['\x7d'] := by decide
  rw [e2] at h
  rw [e1]
  exact listStartsWith_pair h

/-- C8 counterexample: the round-trip claim fails for the bare-string form.
For S = `" ls"` the LLM-returned bare string is stripped, producing
`{"cmd": "ls"}` rather than `{"cmd": " ls"}`, while the object form
`{"cmd": " ls"}` is kept verbatim — the two paths disagree and the
bare-string result is not `{cmd: S}`. -/
theorem C8_counterexample :
    ((acceptedCommandBody (fun _ => none) (Json.str " ls")).map
        (fun b => pyStrOrEmpty (b.get "cmd"))) = some "ls"
    ∧ ((acceptedCommandBody (fun _ => none)
          (Json.obj [("cmd", Json.str " ls")])).map
        (fun b => pyStrOrEmpty (b.get "cmd"))) = some " ls"
    ∧ " ls" ≠ "ls" := by
  refine ⟨by decide, by decide, by decide⟩

/-- C8 (amended): for any command string S that carries no leading or
trailing whitespace and is not shaped like a JSON object literal (does not
both start with a brace and end with one), the `/command` body
normalisation of `api_send` yields exactly `{cmd: S}` whether the LLM
returned the bare string S or an object `{cmd: S}`, `{command: S}` or
`{text: S}`; and whenever normalisation yields no non-blank `cmd`, the
tool call is rejected and no draft run is created. -/
theorem C8_amended (parse : String → Option Json) (S : String)
    (hS : trimStr S = S) (hne : S ≠ "")
    (hbr : ¬ (startsWithStr S "\x7b" = true ∧ endsWithStr S "\x7d" = true)) :
    acceptedCommandBody parse (Json.str S) = some (Json.obj [("cmd", Json.str S)])
    ∧ acceptedCommandBody parse (Json.obj [("cmd", Json.str S)])
        = some (Json.obj [("cmd", Json.str S)])
    ∧ acceptedCommandBody parse (Json.obj [("command", Json.str S)])
        = some (Json.obj [("cmd", Json.str S)])
    ∧ acceptedCommandBody parse (Json.obj [("text", Json.str S)])
        = some (Json.obj [("cmd", Json.str S)])
    ∧ (∀ body : Json, acceptedCommandBody parse body = none →
        commandToolCallOutcome parse body
          = ToolCallOutcome.rejected
              "La llamada a /command requiere body con el campo \x27cmd\x27.") := by
  have hb1 : (startsWithStr S "\x7b" && endsWithStr S "\x7d") = false := by
    cases hA : startsWithStr S "\x7b" with
    | false => rfl
    | true =>
        cases hB : endsWithStr S "\x7d" with
        | false => rfl
        | true => exact absurd ⟨hA, hB⟩ hbr
  have hb2 : (startsWithStr S "\x7b\"" && endsWithStr S "\"\x7d") = false := by
    cases hA : startsWithStr S "\x7b\"" with
    | false => rfl
    | true =>
        cases hB : endsWithStr S "\"\x7d" with
        | false => rfl
        | true =>
            exact absurd ⟨startsWith_brace_quote hA, endsWith_quote_brace hB⟩ hbr
  refine ⟨?_, ?_, ?_, ?_, ?_⟩
  · simp only [acceptedCommandBody, normalizeCommandBody, hS, hne, ne_eq,
      not_false_iff, if_true, hb1, hb2, Bool.or_self, Bool.false_eq_true, if_false]
    simp [hasKey, pyStr, hS, hne]
  · simp only [acceptedCommandBody, normalizeCommandBody]
    simp [hasKey, pyStr, hS, hne]
  · simp only [acceptedCommandBody, normalizeCommandBody]
    simp [hasKey, renamePop, pyStr, hS, hne]
  · simp only [acceptedCommandBody, normalizeCommandBody]
    simp [hasKey, renamePop, pyStr, hS, hne]
  · intro body hnone
    simp [commandToolCallOutcome, hnone]

/-- C8 witness: the amended theorem at S = "ipconfig". -/
theorem C8_witness :
    acceptedCommandBody (fun _ => none) (Json.str "ipconfig")
        = some (Json.obj [("cmd", Json.str "ipconfig")])
    ∧ acceptedCommandBody (fun _ => none) (Json.obj [("text", Json.str "ipconfig")])
        = some (Json.obj [("cmd", Json.str "ipconfig")]) :=
  ⟨(C8_amended (fun _ => none) "ipconfig" (by decide) (by decide) (by decide)).1,
    (C8_amended (fun _ => none) "ipconfig" (by decide) (by decide) (by decide)).2.2.2.1⟩

/-- C9 counterexample: the claim says the user message is appended before
any ChatState inspection, but `api_send` reads `chat_state`
(`pending_run_id`, `active_run_id`, `last_run_*`, lines 629-641) before
`store.add_message(chat_id, "user", text)` (line 652): on the accepted
message "confirmo" the trace places the state read strictly before the
append. -/
theorem C9_counterexample :
    acceptedMsg "confirmo" true
    ∧ List.findIdx (fun op => op == SendOp.readState) (apiSendPrelude "confirmo" true)
        < List.findIdx (fun op => op == SendOp.appendUserMessage) (apiSendPrelude "confirmo" true)
    ∧ ¬ (List.findIdx (fun op => op == SendOp.appendUserMessage) (apiSendPrelude "confirmo" true)
        < List.findIdx (fun op => op == SendOp.readState) (apiSendPrelude "confirmo" true)) := by
  refine ⟨⟨by decide, rfl⟩, by decide, by decide⟩

/-- C9 (amended): for every accepted (non-blank, known-chat) message the
`api_send` prelude is exactly: load the chat, read ChatState, append the
user message, then branch (direct-command fast path or the
confirmation/LLM machinery) — so the state snapshot precedes the append,
and the append precedes every decision taken on that state. -/
theorem C9_amended (text : String) (chatKnown : Bool) (h : acceptedMsg text chatKnown) :
    apiSendPrelude text chatKnown
      = [SendOp.getChat, SendOp.readState, SendOp.appendUserMessage] ++
          (if (extractCommand (trimStr text)).isSome then [SendOp.fastPathDraft]
           else [SendOp.confirmOrLlmBranch]) := by
  obtain ⟨hne, hk⟩ := h
  subst hk
  simp [apiSendPrelude, hne]

/-- C9 witness: the amended theorem on the accepted message "hola". -/
theorem C9_witness :
    apiSendPrelude "hola" true
      = [SendOp.getChat, SendOp.readState, SendOp.appendUserMessage] ++
          (if (extractCommand (trimStr "hola")).isSome then [SendOp.fastPathDraft]
           else [SendOp.confirmOrLlmBranch]) :=
  C9_amended "hola" true ⟨by decide, rfl⟩

lemma reasonFix_ok_some (body : Json) (msg : ReasonerMsg) (c : String)
    (h : reasonAboutCommandFailure body msg = Except.ok (some c)) :
    ∃ tc rest, msg.toolCalls = tc :: rest
      ∧ tc.args.isObj = true
      ∧ tc.args.get "action" = some (Json.str "retry")
      ∧ (∃ s, tc.args.get "cmd" = some (Json.str s) ∧ s ≠ "" ∧ trimStr s = c)
      ∧ c ≠ ""
      ∧ c ≠ trimStr (prevCmdOf body) := by
  obtain ⟨tcs⟩ := msg
  cases tcs with
  | nil => simp [reasonAboutCommandFailure] at h
  | cons tc rest =>
      simp only [reasonAboutCommandFailure] at h
      cases hobj : tc.args.isObj with
      | false =>
          rw [if_pos (by simp [hobj])] at h
          simp at h
      | true =>
          rw [if_neg (by simp [hobj])] at h
          split at h
          · rename_i ha
            split at h
            · exact absurd h (by simp)
            · rename_i newCmd hnc
              split at h
              · exact absurd h (by simp)
              · split at h
                · exact absurd h (by simp)
                · rename_i hne2 hdiff
                  have hc : newCmd = c := by simpa using h
                  subst hc
                  unfold reasonExtractCmd at hnc
                  split at hnc
                  · have he : ("" : String) = newCmd := by simpa using hnc
                    exact absurd he.symm hne2
                  · rename_i v hv
                    split at hnc
                    · have he : ("" : String) = newCmd := by simpa using hnc
                      exact absurd he.symm hne2
                    · rename_i htruthy
                      split at hnc
                      · rename_i s
                        have hs : trimStr s = newCmd := by simpa using hnc
                        refine ⟨tc, rest, rfl, hobj, ha, ⟨s, hv, ?_, hs⟩, hne2, hdiff⟩
                        have ht : pyTruthy (Json.str s) = true := by
                          revert htruthy
                          cases hpv : pyTruthy (Json.str s) <;> simp
                        simpa [pyTruthy] using ht
                      · exact absurd hnc (by simp)
          · rename_i hnotretry
            exact absurd h (by simp)

/-- C4 counterexample: a reasoner reply whose arguments are
`{action: "retry", cmd: 5}` — a truthy non-string `cmd` — does not lead to
`step_err`: `(args.get("cmd") or "").strip()` raises `AttributeError`
inside the runner, which aborts the whole plan as a run-level fatal error
with no `step_err` emitted, contradicting the claim that every
non-conforming reasoner response leads to `step_err` and a step abort. -/
theorem C4_counterexample :
    reasonAboutCommandFailure (Json.obj [("cmd", Json.str "ls")])
        ⟨[⟨some "propose_fix",
           Json.obj [("action", Json.str "retry"), ("cmd", Json.num 5)]⟩]⟩
      = Except.error "AttributeError"
    ∧ (invokeMcpWithEmit "POST" "/command" (Json.obj [("cmd", Json.str "ls")])
        [(200, Json.obj [("status", Json.str "error"), ("exit_code", Json.num 1)]),
         (200, Json.obj [("status", Json.str "error"), ("exit_code", Json.num 1)]),
         (200, Json.obj [("status", Json.str "error"), ("exit_code", Json.num 1)])]
        (fun _ => ⟨[⟨some "propose_fix",
           Json.obj [("action", Json.str "retry"), ("cmd", Json.num 5)]⟩]⟩)).res
      = LoopRes.fatal "AttributeError"
    ∧ ((invokeMcpWithEmit "POST" "/command" (Json.obj [("cmd", Json.str "ls")])
        [(200, Json.obj [("status", Json.str "error"), ("exit_code", Json.num 1)]),
         (200, Json.obj [("status", Json.str "error"), ("exit_code", Json.num 1)]),
         (200, Json.obj [("status", Json.str "error"), ("exit_code", Json.num 1)])]
        (fun _ => ⟨[⟨some "propose_fix",
           Json.obj [("action", Json.str "retry"), ("cmd", Json.num 5)]⟩]⟩)).events.filter
        (fun e => e.kind == "step_err")).length = 0 := by
  refine ⟨by rfl, by decide, by decide⟩

/-- C4 (amended): the command retry state machine of
`invoke_mcp_with_emit`, with `MAX_ATTEMPTS = 3`.  On a 2xx command failure
with `attempt < MAX` the loop emits `step_retry` and re-invokes with the
same body; when `attempt >= MAX` it emits `step_retry` and consults the
reasoner: an accepted proposal — which requires a tool call whose arguments
are a dict with `action = "retry"` and a non-empty stripped string `cmd`
differing from the prior command — that also passes the dangerous-command
filter replaces the body with `{"cmd": c}` and re-invokes; a declined or
dangerous proposal emits `step_err` and aborts the step; a reply carrying a
truthy non-string `cmd` raises out of the runner (fatal, no `step_err`). -/
theorem C4_amended :
    maxAttemptsPerCommandStep = 3
    ∧ (∀ n : Nat, (RunEv.stepRetryPlain n).kind = "step_retry"
        ∧ (RunEv.stepRetryReason n).kind = "step_retry"
        ∧ ∀ c, (RunEv.stepRetryProposed n c).kind = "step_retry")
    ∧ (∀ (msgs : Nat → ReasonerMsg) (attempt cs : Nat) (body : Json) (sc : Int)
        (res : Json) (rest : List (Int × Json)),
        200 ≤ sc → sc < 300 → (commandFailedRunner res).1 = true →
        attempt < maxAttemptsPerCommandStep →
        invokeMcpWithEmitAux "POST" "/command" msgs attempt body cs ((sc, res) :: rest)
          = ⟨RunEv.stepRetryPlain (attempt + 1)
                :: (invokeMcpWithEmitAux "POST" "/command" msgs (attempt + 1) body cs rest).events,
             body :: (invokeMcpWithEmitAux "POST" "/command" msgs (attempt + 1) body cs rest).dispatches,
             (invokeMcpWithEmitAux "POST" "/command" msgs (attempt + 1) body cs rest).res⟩)
    ∧ (∀ (msgs : Nat → ReasonerMsg) (attempt cs : Nat) (body : Json) (sc : Int)
        (res : Json) (rest : List (Int × Json)) (c : String),
        200 ≤ sc → sc < 300 → (commandFailedRunner res).1 = true →
        maxAttemptsPerCommandStep ≤ attempt →
        reasonAboutCommandFailure body (msgs cs) = Except.ok (some c) →
        looksDangerous c = false →
        invokeMcpWithEmitAux "POST" "/command" msgs attempt body cs ((sc, res) :: rest)
          = ⟨RunEv.stepRetryReason attempt :: RunEv.stepRetryProposed (attempt + 1) c
                :: (invokeMcpWithEmitAux "POST" "/command" msgs (attempt + 1)
                      (Json.obj [("cmd", Json.str c)]) (cs + 1) rest).events,
             body :: (invokeMcpWithEmitAux "POST" "/command" msgs (attempt + 1)
                      (Json.obj [("cmd", Json.str c)]) (cs + 1) rest).dispatches,
             (invokeMcpWithEmitAux "POST" "/command" msgs (attempt + 1)
                      (Json.obj [("cmd", Json.str c)]) (cs + 1) rest).res⟩)
    ∧ (∀ (msgs : Nat → ReasonerMsg) (attempt cs : Nat) (body : Json) (sc : Int)
        (res : Json) (rest : List (Int × Json)),
        200 ≤ sc → sc < 300 → (commandFailedRunner res).1 = true →
        maxAttemptsPerCommandStep ≤ attempt →
        reasonAboutCommandFailure body (msgs cs) = Except.ok none →
        invokeMcpWithEmitAux "POST" "/command" msgs attempt body cs ((sc, res) :: rest)
          = ⟨[RunEv.stepRetryReason attempt, RunEv.stepErr attempt], [body],
             LoopRes.errNoFix sc⟩)
    ∧ (∀ (msgs : Nat → ReasonerMsg) (attempt cs : Nat) (body : Json) (sc : Int)
        (res : Json) (rest : List (Int × Json)) (c : String),
        200 ≤ sc → sc < 300 → (commandFailedRunner res).1 = true →
        maxAttemptsPerCommandStep ≤ attempt →
        reasonAboutCommandFailure body (msgs cs) = Except.ok (some c) →
        looksDangerous c = true →
        invokeMcpWithEmitAux "POST" "/command" msgs attempt body cs ((sc, res) :: rest)
          = ⟨[RunEv.stepRetryReason attempt, RunEv.stepErr attempt], [body],
             LoopRes.errNoFix sc⟩)
    ∧ (∀ (msgs : Nat → ReasonerMsg) (attempt cs : Nat) (body : Json) (sc : Int)
        (res : Json) (rest : List (Int × Json)) (e : String),
        200 ≤ sc → sc < 300 → (commandFailedRunner res).1 = true →
        maxAttemptsPerCommandStep ≤ attempt →
        reasonAboutCommandFailure body (msgs cs) = Except.error e →
        invokeMcpWithEmitAux "POST" "/command" msgs attempt body cs ((sc, res) :: rest)
          = ⟨[RunEv.stepRetryReason attempt], [body], LoopRes.fatal e⟩)
    ∧ (∀ (body : Json) (msg : ReasonerMsg) (c : String),
        reasonAboutCommandFailure body msg = Except.ok (some c) →
        ∃ tc rest, msg.toolCalls = tc :: rest
          ∧ tc.args.isObj = true
          ∧ tc.args.get "action" = some (Json.str "retry")
          ∧ (∃ s, tc.args.get "cmd" = some (Json.str s) ∧ s ≠ "" ∧ trimStr s = c)
          ∧ c ≠ ""
          ∧ c ≠ trimStr (prevCmdOf body)) := by
  have hcmd : isCommandCall "POST" "/command" = true := by decide
  refine ⟨rfl, fun n => ⟨rfl, rfl, fun c => rfl⟩, ?_, ?_, ?_, ?_, ?_,
    fun body msg c h => reasonFix_ok_some body msg c h⟩
  · intro msgs attempt cs body sc res rest h1 h2 hfail hlt
    simp only [invokeMcpWithEmitAux]
    rw [if_neg (not_not_intro ⟨h1, h2⟩), if_pos hcmd,
      if_neg (by simp [hfail]), if_neg (by omega)]
  · intro msgs attempt cs body sc res rest c h1 h2 hfail hge hprop hdanger
    simp only [invokeMcpWithEmitAux]
    rw [if_neg (not_not_intro ⟨h1, h2⟩), if_pos hcmd,
      if_neg (by simp [hfail]), if_pos hge]
    simp only [hprop]
    rw [if_neg (by simp [hdanger])]
  · intro msgs attempt cs body sc res rest h1 h2 hfail hge hprop
    simp only [invokeMcpWithEmitAux]
    rw [if_neg (not_not_intro ⟨h1, h2⟩), if_pos hcmd,
      if_neg (by simp [hfail]), if_pos hge]
    simp only [hprop]
  · intro msgs attempt cs body sc res rest c h1 h2 hfail hge hprop hdanger
    simp only [invokeMcpWithEmitAux]
    rw [if_neg (not_not_intro ⟨h1, h2⟩), if_pos hcmd,
      if_neg (by simp [hfail]), if_pos hge]
    simp only [hprop]
    rw [if_pos hdanger]
  · intro msgs attempt cs body sc res rest e h1 h2 hfail hge hprop
    simp only [invokeMcpWithEmitAux]
    rw [if_neg (not_not_intro ⟨h1, h2⟩), if_pos hcmd,
      if_neg (by simp [hfail]), if_pos hge]
    simp only [hprop]

/-- C4 witness: the amended theorem at a concrete failing payload, for a
plain retry (attempt 1) and a declining reasoner at attempt 3. -/
theorem C4_witness :
    (invokeMcpWithEmitAux "POST" "/command" (fun _ => ReasonerMsg.mk []) 1
        (Json.obj [("cmd", Json.str "ls")]) 0
        [(200, Json.obj [("status", Json.str "error"), ("exit_code", Json.num 1)])]
      = ⟨RunEv.stepRetryPlain 2
            :: (invokeMcpWithEmitAux "POST" "/command" (fun _ => ReasonerMsg.mk []) 2
                  (Json.obj [("cmd", Json.str "ls")]) 0 []).events,
         Json.obj [("cmd", Json.str "ls")]
            :: (invokeMcpWithEmitAux "POST" "/command" (fun _ => ReasonerMsg.mk []) 2
                  (Json.obj [("cmd", Json.str "ls")]) 0 []).dispatches,
         (invokeMcpWithEmitAux "POST" "/command" (fun _ => ReasonerMsg.mk []) 2
            (Json.obj [("cmd", Json.str "ls")]) 0 []).res⟩)
    ∧ (invokeMcpWithEmitAux "POST" "/command" (fun _ => ReasonerMsg.mk []) 3
        (Json.obj [("cmd", Json.str "ls")]) 0
        [(200, Json.obj [("status", Json.str "error"), ("exit_code", Json.num 1)])]
      = ⟨[RunEv.stepRetryReason 3, RunEv.stepErr 3], [Json.obj [("cmd", Json.str "ls")]],
         LoopRes.errNoFix 200⟩) :=
  ⟨C4_amended.2.2.1 (fun _ => ReasonerMsg.mk []) 1 0 (Json.obj [("cmd", Json.str "ls")]) 200
      (Json.obj [("status", Json.str "error"), ("exit_code", Json.num 1)]) []
      (by decide) (by decide) (by decide) (by decide),
    C4_amended.2.2.2.2.1 (fun _ => ReasonerMsg.mk []) 3 0 (Json.obj [("cmd", Json.str "ls")]) 200
      (Json.obj [("status", Json.str "error"), ("exit_code", Json.num 1)]) []
      (by decide) (by decide) (by decide) (by decide) (by rfl)⟩
